import Mathlib

/-!
Verification of the probability-distribution assignment repository.

The repository holds two variant scripts:

- Variant A (`Maths_assignment/Assignment 1_Group C.py`): validating
  evaluator; each distribution function checks its parameter ranges and
  rejects negative input values, and the dispatcher rejects any negative
  value up front before dispatching on the lowercased name.
- Variant B (`modified_for_negative_removal.py`): filtering evaluator;
  `filter_values` partitions the input into negative and non-negative
  subsequences and proceeds with the non-negative ones, and each
  distribution formula is implemented by hand with no parameter checks.

Embedding choices:
- input values are integers (`List ℤ`), as produced by the drivers via
  `np.arange`; probabilities are real numbers (`ℝ`);
- fallible functions return `Except String`, carrying the ValueError
  message text of the source (quotes around parameter names in the
  messages are omitted);
- the parameter dictionary is embedded as a record `Params` with one
  field per key the scripts ever store (`n, p, mu, low, high`);
- Variant A delegates the actual probability computation to scipy; the
  success payloads of its functions are therefore modelled from the spec
  formulas (marked below), while all validation and dispatch logic is
  translated from the source;
- Lean division by zero yields 0 where Python would raise
  ZeroDivisionError; this collapses the error path of the Variant B
  uniform density at `high = low` (the Python raises there for any value
  in `[low, high]`), so every proved completion statement about
  `VariantB.uniform_dist` carries a `low ≠ high` hypothesis rather than
  relying on the collapse.
-/

namespace Spec2Proof

noncomputable section

/-- Parameter record standing for the Python parameter dictionary: one field
per key the two scripts ever store. `n` is an integer (read with `int(...)`),
the rest are reals. -/
structure Params where
  n : ℤ
  p : ℝ
  mu : ℝ
  low : ℝ
  high : ℝ

/-- Error message of the dispatchers of both variants for an unknown name. -/
def unsupportedMsg : String := "Unsupported distribution name."

/-- Character-wise lowercasing, modelling the Python `name.lower()` call of
Variant A (equivalently `String.toLower`, spelt out so that it reduces on
concrete strings). -/
def strLower (s : String) : String := ⟨s.data.map Char.toLower⟩

namespace VariantB

/-- Error message raised by `filter_values` when no non-negative value
remains. -/
def allNegativeMsg : String := "All input values are negative. Cannot compute probabilities."

/-- Geometric PMF of `modified_for_negative_removal.py`:
`(1 - p)**(x - 1) * p if x > 0 else 0` for each x in vals. -/
def geometric (p : ℝ) (vals : List ℤ) : List ℝ :=
  vals.map (fun x => if x > 0 then (1 - p) ^ (x - 1) * p else 0)

/-- Binomial PMF of `modified_for_negative_removal.py`:
`comb(n, x) * (p**x) * ((1 - p)**(n - x)) if 0 <= x <= n else 0`. -/
def binomial (n : ℤ) (p : ℝ) (vals : List ℤ) : List ℝ :=
  vals.map (fun x =>
    if 0 ≤ x ∧ x ≤ n then (n.toNat.choose x.toNat : ℝ) * p ^ x * (1 - p) ^ (n - x) else 0)

/-- Poisson PMF of `modified_for_negative_removal.py`:
`(mu**x * exp(-mu)) / factorial(x) if x >= 0 else 0`. -/
def poisson_dist (mu : ℝ) (vals : List ℤ) : List ℝ :=
  vals.map (fun x =>
    if x ≥ 0 then mu ^ x * Real.exp (-mu) / (Nat.factorial x.toNat : ℝ) else 0)

/-- Uniform PDF of `modified_for_negative_removal.py`:
`1 / (high - low) if low <= x <= high else 0`. Caveat: Lean total
division returns 0 at `high = low`, where the Python raises
ZeroDivisionError for any value in `[low, high]`; completion statements
about this function are therefore only made under `low ≠ high`. -/
def uniform_dist (low high : ℝ) (vals : List ℤ) : List ℝ :=
  vals.map (fun (x : ℤ) => if low ≤ (x : ℝ) ∧ (x : ℝ) ≤ high then 1 / (high - low) else 0)

/-- The negative values collected by `filter_values` (displayed by the
script): `[v for v in vals if v < 0]`. -/
def removed_values (vals : List ℤ) : List ℤ :=
  vals.filter (fun v => v < 0)

/-- The non-negative values kept by `filter_values`:
`[v for v in vals if v >= 0]`. -/
def remaining_values (vals : List ℤ) : List ℤ :=
  vals.filter (fun v => v ≥ 0)

/-- Function `filter_values` of `modified_for_negative_removal.py`: raises ValueError
when no non-negative value remains, otherwise returns the kept values. -/
def filter_values (vals : List ℤ) : Except String (List ℤ) :=
  if (remaining_values vals).isEmpty then Except.error allNegativeMsg
  else Except.ok (remaining_values vals)

/-- Function `get_probability_distribution` of `modified_for_negative_removal.py`:
filters the values first, then dispatches on the exact (not lowercased)
name, returning the filtered values paired with their probabilities. -/
def get_probability_distribution (name : String) (parameters : Params) (vals : List ℤ) :
    Except String (List ℤ × List ℝ) :=
  match filter_values vals with
  | Except.error e => Except.error e
  | Except.ok filtered_vals =>
    if name = "geometric" then
      Except.ok (filtered_vals, geometric parameters.p filtered_vals)
    else if name = "binomial" then
      Except.ok (filtered_vals, binomial parameters.n parameters.p filtered_vals)
    else if name = "poisson" then
      Except.ok (filtered_vals, poisson_dist parameters.mu filtered_vals)
    else if name = "uniform" then
      Except.ok (filtered_vals, uniform_dist parameters.low parameters.high filtered_vals)
    else Except.error unsupportedMsg

end VariantB

namespace VariantA

/-- Error message of Variant A for a negative input value. -/
def negativeValsMsg : String := "All values in vals must be non-negative."

/-- Error message of Variant A geometric for p outside (0, 1]. -/
def geomParamMsg : String := "The probability of success p must be in the range (0, 1]."

/-- Error message of Variant A binomial for n < 0. -/
def binomNMsg : String := "The number of trials n must be non-negative."

/-- Error message of Variant A binomial for p outside [0, 1]. -/
def binomPMsg : String := "The probability of success p must be in the range [0, 1]."

/-- Error message of Variant A poisson for mu < 0. -/
def poissonMuMsg : String := "The mean mu must be non-negative."

/-- Error message of Variant A uniform for low >= high. -/
def uniformBoundsMsg : String := "The lower bound low must be less than the upper bound high."

/-- Modelled from the spec: the scipy `geom(p).pmf` value at an integer x,
`(1-p)^(x-1) * p` for x >= 1 and 0 otherwise (the script delegates this
computation to scipy, which is outside the repository). -/
def geomPmf (p : ℝ) (x : ℤ) : ℝ :=
  if 1 ≤ x then (1 - p) ^ (x - 1) * p else 0

/-- Modelled from the spec: the scipy `binom(n, p).pmf` value at an integer
x, `C(n,x) * p^x * (1-p)^(n-x)` for 0 <= x <= n and 0 otherwise. -/
def binomPmf (n : ℤ) (p : ℝ) (x : ℤ) : ℝ :=
  if 0 ≤ x ∧ x ≤ n then (n.toNat.choose x.toNat : ℝ) * p ^ x * (1 - p) ^ (n - x) else 0

/-- Modelled from the spec: the scipy `poisson(mu).pmf` value at an integer
x, `mu^x * exp(-mu) / x!` for x >= 0 and 0 otherwise. -/
def poissonPmf (mu : ℝ) (x : ℤ) : ℝ :=
  if 0 ≤ x then mu ^ x * Real.exp (-mu) / (Nat.factorial x.toNat : ℝ) else 0

/-- Modelled from the spec: the scipy `uniform(loc=low, scale=high-low).pdf`
value, `1/(high-low)` on [low, high] and 0 outside. -/
def uniformPdf (low high : ℝ) (x : ℤ) : ℝ :=
  if low ≤ (x : ℝ) ∧ (x : ℝ) ≤ high then (1 : ℝ) / (high - low) else 0

/-- Function `geometric` of `Assignment 1_Group C.py`: validates `0 < p <= 1`, then
that no value is negative, then delegates to scipy. -/
def geometric (p : ℝ) (vals : List ℤ) : Except String (List ℝ) :=
  if p ≤ 0 ∨ p > 1 then Except.error geomParamMsg
  else if vals.any (fun v => v < 0) then Except.error negativeValsMsg
  else Except.ok (vals.map (geomPmf p))

/-- Function `binomial` of `Assignment 1_Group C.py`: validates `n >= 0`, then
`0 <= p <= 1`, then that no value is negative, then delegates to scipy. -/
def binomial (n : ℤ) (p : ℝ) (vals : List ℤ) : Except String (List ℝ) :=
  if n < 0 then Except.error binomNMsg
  else if p < 0 ∨ p > 1 then Except.error binomPMsg
  else if vals.any (fun v => v < 0) then Except.error negativeValsMsg
  else Except.ok (vals.map (binomPmf n p))

/-- Function `poisson_dist` of `Assignment 1_Group C.py`: validates `mu >= 0`, then
that no value is negative, then delegates to scipy. -/
def poisson_dist (mu : ℝ) (vals : List ℤ) : Except String (List ℝ) :=
  if mu < 0 then Except.error poissonMuMsg
  else if vals.any (fun v => v < 0) then Except.error negativeValsMsg
  else Except.ok (vals.map (poissonPmf mu))

/-- Function `uniform_dist` of `Assignment 1_Group C.py`: validates `low < high` and
delegates to scipy; it has no negative-value check of its own. -/
def uniform_dist (low high : ℝ) (vals : List ℤ) : Except String (List ℝ) :=
  if low ≥ high then Except.error uniformBoundsMsg
  else Except.ok (vals.map (uniformPdf low high))

/-- Function `get_probability_distribution` of `Assignment 1_Group C.py`: rejects any
negative input value up front, then lowercases the name and dispatches. -/
def get_probability_distribution (name : String) (parameters : Params) (vals : List ℤ) :
    Except String (List ℝ) :=
  if vals.any (fun v => v < 0) then Except.error negativeValsMsg
  else if strLower name = "geometric" then geometric parameters.p vals
  else if strLower name = "binomial" then binomial parameters.n parameters.p vals
  else if strLower name = "poisson" then poisson_dist parameters.mu vals
  else if strLower name = "uniform" then uniform_dist parameters.low parameters.high vals
  else Except.error unsupportedMsg

end VariantA

/-- Helper: the two filters of `filter_values` partition the multiset of
input values, counting each value with its multiplicity. -/
lemma count_removed_add_count_remaining (vals : List ℤ) (v : ℤ) :
    (VariantB.removed_values vals).count v + (VariantB.remaining_values vals).count v
      = vals.count v := by
  unfold VariantB.removed_values VariantB.remaining_values
  induction vals with
  | nil => simp
  | cons a l ih =>
    by_cases ha : a < 0
    · have h1 : (fun v : ℤ => decide (v < 0)) a = true := by simp [ha]
      have h2 : (fun v : ℤ => decide (v ≥ 0)) a = false := by simp; omega
      rw [List.filter_cons, List.filter_cons, if_pos h1, if_neg (by simp [h2])]
      simp only [List.count_cons]
      omega
    · have h1 : (fun v : ℤ => decide (v < 0)) a = false := by simp; omega
      have h2 : (fun v : ℤ => decide (v ≥ 0)) a = true := by simp; omega
      rw [List.filter_cons, List.filter_cons, if_neg (by simp [h1]), if_pos h2]
      simp only [List.count_cons]
      omega

/-- C1. In filter mode (Variant B), `filter_values` partitions the input
into the removed subsequence (exactly the values < 0) and the kept
subsequence (exactly the values >= 0), each preserving the relative order
of the original list; it raises the all-negative error exactly when the
kept list is empty, and otherwise returns the kept list. -/
theorem filter_values_partitions (vals : List ℤ) :
    List.Sublist (VariantB.removed_values vals) vals ∧
    List.Sublist (VariantB.remaining_values vals) vals ∧
    (∀ v : ℤ, v ∈ VariantB.removed_values vals ↔ v ∈ vals ∧ v < 0) ∧
    (∀ v : ℤ, v ∈ VariantB.remaining_values vals ↔ v ∈ vals ∧ 0 ≤ v) ∧
    (∀ v : ℤ, (VariantB.removed_values vals).count v + (VariantB.remaining_values vals).count v
      = vals.count v) ∧
    (VariantB.filter_values vals = Except.error VariantB.allNegativeMsg ↔
      VariantB.remaining_values vals = []) ∧
    (VariantB.remaining_values vals ≠ [] →
      VariantB.filter_values vals = Except.ok (VariantB.remaining_values vals)) := by
  refine ⟨List.filter_sublist vals, List.filter_sublist vals, ?_, ?_, ?_, ?_, ?_⟩
  · intro v
    simp [VariantB.removed_values, List.mem_filter]
  · intro v
    simp [VariantB.remaining_values, List.mem_filter]
  · exact count_removed_add_count_remaining vals
  · unfold VariantB.filter_values
    by_cases h : (VariantB.remaining_values vals).isEmpty
    · simp [h, List.isEmpty_iff.mp h]
    · rw [if_neg (by simp [h])]
      constructor
      · intro hc
        exact absurd hc (by simp)
      · intro hc
        exact absurd (List.isEmpty_iff.mpr hc) h
  · intro h
    unfold VariantB.filter_values
    rw [if_neg (by simp [List.isEmpty_iff, h])]

/-- Witness for C1 at vals = [-1, 2]: the kept list is nonempty and
`filter_values` returns it. -/
theorem filter_values_partitions_witness :
    VariantB.remaining_values [-1, 2] ≠ [] ∧
    VariantB.filter_values [-1, 2] = Except.ok (VariantB.remaining_values [-1, 2]) :=
  ⟨by decide, (filter_values_partitions [-1, 2]).2.2.2.2.2.2 (by decide)⟩

/-- C2. In reject mode (Variant A), any input list with a negative value
makes `get_probability_distribution` fail with the invalid-input error
before any dispatch: the result is that error for every distribution name
and every parameter record, so no intermediate results are returned. -/
theorem reject_mode_negative_vals (name : String) (parameters : Params) (vals : List ℤ)
    (h : ∃ v ∈ vals, v < 0) :
    VariantA.get_probability_distribution name parameters vals
      = Except.error VariantA.negativeValsMsg := by
  unfold VariantA.get_probability_distribution
  rw [if_pos]
  simp only [List.any_eq_true, decide_eq_true_eq]
  exact h

/-- Witness for C2: binomial with n = 5, p = 0.5 on vals = [-1, 0, 1]
fails with the invalid-input error. -/
theorem reject_mode_negative_vals_witness :
    VariantA.get_probability_distribution "binomial" (Params.mk 5 (1/2) 0 0 0) [-1, 0, 1]
      = Except.error VariantA.negativeValsMsg :=
  reject_mode_negative_vals "binomial" (Params.mk 5 (1/2) 0 0 0) [-1, 0, 1]
    ⟨-1, by decide, by decide⟩

/-- C3. In Variant A, each distribution function raises its
invalid-parameter error exactly when a parameter violates its stated
range (geometric unless 0 < p <= 1; binomial unless n >= 0 and
0 <= p <= 1, checking n first; poisson unless mu >= 0; uniform unless
low < high), and with in-range parameters and non-negative values it
returns the probabilities without error. -/
theorem variantA_parameter_validation :
    (∀ (p : ℝ) (vals : List ℤ), ¬ (0 < p ∧ p ≤ 1) →
      VariantA.geometric p vals = Except.error VariantA.geomParamMsg) ∧
    (∀ (p : ℝ) (vals : List ℤ), 0 < p ∧ p ≤ 1 → (∀ v ∈ vals, 0 ≤ v) →
      VariantA.geometric p vals = Except.ok (vals.map (VariantA.geomPmf p))) ∧
    (∀ (n : ℤ) (p : ℝ) (vals : List ℤ), n < 0 →
      VariantA.binomial n p vals = Except.error VariantA.binomNMsg) ∧
    (∀ (n : ℤ) (p : ℝ) (vals : List ℤ), 0 ≤ n → ¬ (0 ≤ p ∧ p ≤ 1) →
      VariantA.binomial n p vals = Except.error VariantA.binomPMsg) ∧
    (∀ (n : ℤ) (p : ℝ) (vals : List ℤ), 0 ≤ n → 0 ≤ p ∧ p ≤ 1 → (∀ v ∈ vals, 0 ≤ v) →
      VariantA.binomial n p vals = Except.ok (vals.map (VariantA.binomPmf n p))) ∧
    (∀ (mu : ℝ) (vals : List ℤ), mu < 0 →
      VariantA.poisson_dist mu vals = Except.error VariantA.poissonMuMsg) ∧
    (∀ (mu : ℝ) (vals : List ℤ), 0 ≤ mu → (∀ v ∈ vals, 0 ≤ v) →
      VariantA.poisson_dist mu vals = Except.ok (vals.map (VariantA.poissonPmf mu))) ∧
    (∀ (low high : ℝ) (vals : List ℤ), ¬ low < high →
      VariantA.uniform_dist low high vals = Except.error VariantA.uniformBoundsMsg) ∧
    (∀ (low high : ℝ) (vals : List ℤ), low < high →
      VariantA.uniform_dist low high vals = Except.ok (vals.map (VariantA.uniformPdf low high))) := by
  refine ⟨?_, ?_, ?_, ?_, ?_, ?_, ?_, ?_, ?_⟩
  · intro p vals hp
    have hcond : p ≤ 0 ∨ p > 1 := by
      rcases not_and_or.mp hp with h | h
      · exact Or.inl (not_lt.mp h)
      · exact Or.inr (not_le.mp h)
    unfold VariantA.geometric
    rw [if_pos hcond]
  · intro p vals hp hvals
    have hcond : ¬ (p ≤ 0 ∨ p > 1) := by
      push_neg
      exact ⟨hp.1, hp.2⟩
    have hnoneg : ¬ (vals.any (fun v => decide (v < 0)) = true) := by
      simp only [List.any_eq_true, decide_eq_true_eq, not_exists, not_and, not_lt]
      exact hvals
    unfold VariantA.geometric
    rw [if_neg hcond, if_neg hnoneg]
  · intro n p vals hn
    unfold VariantA.binomial
    rw [if_pos hn]
  · intro n p vals hn hp
    have hcond : p < 0 ∨ p > 1 := by
      rcases not_and_or.mp hp with h | h
      · exact Or.inl (not_le.mp h)
      · exact Or.inr (not_le.mp h)
    unfold VariantA.binomial
    rw [if_neg (by omega), if_pos hcond]
  · intro n p vals hn hp hvals
    have hcond : ¬ (p < 0 ∨ p > 1) := by
      push_neg
      exact ⟨hp.1, hp.2⟩
    have hnoneg : ¬ (vals.any (fun v => decide (v < 0)) = true) := by
      simp only [List.any_eq_true, decide_eq_true_eq, not_exists, not_and, not_lt]
      exact hvals
    unfold VariantA.binomial
    rw [if_neg (by omega), if_neg hcond, if_neg hnoneg]
  · intro mu vals hmu
    unfold VariantA.poisson_dist
    rw [if_pos hmu]
  · intro mu vals hmu hvals
    have hnoneg : ¬ (vals.any (fun v => decide (v < 0)) = true) := by
      simp only [List.any_eq_true, decide_eq_true_eq, not_exists, not_and, not_lt]
      exact hvals
    unfold VariantA.poisson_dist
    rw [if_neg (not_lt.mpr hmu), if_neg hnoneg]
  · intro low high vals h
    unfold VariantA.uniform_dist
    rw [if_pos (ge_iff_le.mpr (not_lt.mp h))]
  · intro low high vals h
    unfold VariantA.uniform_dist
    rw [if_neg (by push_neg; exact h)]

/-- Witness for C3: one concrete instance of each validation branch. -/
theorem variantA_parameter_validation_witness :
    VariantA.geometric 2 [1] = Except.error VariantA.geomParamMsg ∧
    VariantA.geometric (1/2) [1] = Except.ok ([1].map (VariantA.geomPmf (1/2))) ∧
    VariantA.binomial (-1) (1/2) [0] = Except.error VariantA.binomNMsg ∧
    VariantA.binomial 5 2 [0] = Except.error VariantA.binomPMsg ∧
    VariantA.binomial 5 (1/2) [0, 1] = Except.ok ([0, 1].map (VariantA.binomPmf 5 (1/2))) ∧
    VariantA.poisson_dist (-1) [0] = Except.error VariantA.poissonMuMsg ∧
    VariantA.poisson_dist 1 [0] = Except.ok ([0].map (VariantA.poissonPmf 1)) ∧
    VariantA.uniform_dist 3 3 [0] = Except.error VariantA.uniformBoundsMsg ∧
    VariantA.uniform_dist 0 2 [1] = Except.ok ([1].map (VariantA.uniformPdf 0 2)) :=
  ⟨variantA_parameter_validation.1 2 [1] (by norm_num),
   variantA_parameter_validation.2.1 (1/2) [1] (by norm_num) (by decide),
   variantA_parameter_validation.2.2.1 (-1) (1/2) [0] (by norm_num),
   variantA_parameter_validation.2.2.2.1 5 2 [0] (by norm_num) (by norm_num),
   variantA_parameter_validation.2.2.2.2.1 5 (1/2) [0, 1] (by norm_num) (by norm_num) (by decide),
   variantA_parameter_validation.2.2.2.2.2.1 (-1) [0] (by norm_num),
   variantA_parameter_validation.2.2.2.2.2.2.1 1 [0] (by norm_num) (by decide),
   variantA_parameter_validation.2.2.2.2.2.2.2.1 3 3 [0] (by norm_num),
   variantA_parameter_validation.2.2.2.2.2.2.2.2 0 2 [1] (by norm_num)⟩

/-- C4, counterexample. The Variant B dispatcher is case-sensitive: the
capitalized name "Geometric" falls through every branch and yields the
unsupported-distribution error, while the lowercase "geometric" succeeds
on the same parameters and values, so case-insensitive selection in both
variants fails. -/
theorem dispatcher_case_insensitive_counterexample :
    VariantB.get_probability_distribution "Geometric" (Params.mk 0 (1/2) 0 0 0) [1]
      = Except.error unsupportedMsg ∧
    VariantB.get_probability_distribution "geometric" (Params.mk 0 (1/2) 0 0 0) [1]
      = Except.ok ([1], VariantB.geometric (1/2) [1]) := by
  constructor
  · rfl
  · rfl

/-- C4, amended. The Variant A dispatcher is case-insensitive (names equal
up to lowercasing behave identically) and fails with the
unsupported-distribution error for any name whose lowercased form is not
one of the four kinds, provided no input value is negative; the Variant B
dispatcher matches the four lowercase names exactly and fails with the
unsupported-distribution error for any other string, provided some input
value is non-negative. -/
theorem dispatcher_dispatch_amended :
    (∀ (name₁ name₂ : String) (parameters : Params) (vals : List ℤ),
      strLower name₁ = strLower name₂ →
      VariantA.get_probability_distribution name₁ parameters vals
        = VariantA.get_probability_distribution name₂ parameters vals) ∧
    (∀ (name : String) (parameters : Params) (vals : List ℤ),
      strLower name ∉ (["geometric", "binomial", "poisson", "uniform"] : List String) →
      ¬ (∃ v ∈ vals, v < 0) →
      VariantA.get_probability_distribution name parameters vals
        = Except.error unsupportedMsg) ∧
    (∀ (name : String) (parameters : Params) (vals : List ℤ),
      name ∉ (["geometric", "binomial", "poisson", "uniform"] : List String) →
      (∃ v ∈ vals, 0 ≤ v) →
      VariantB.get_probability_distribution name parameters vals
        = Except.error unsupportedMsg) := by
  refine ⟨?_, ?_, ?_⟩
  · intro name₁ name₂ parameters vals h
    unfold VariantA.get_probability_distribution
    rw [h]
  · intro name parameters vals hname hvals
    simp only [List.mem_cons, List.not_mem_nil, or_false, not_or] at hname
    obtain ⟨h1, h2, h3, h4⟩ := hname
    have hnoneg : ¬ (vals.any (fun v => decide (v < 0)) = true) := by
      simp only [List.any_eq_true, decide_eq_true_eq]
      exact hvals
    unfold VariantA.get_probability_distribution
    rw [if_neg hnoneg, if_neg h1, if_neg h2, if_neg h3, if_neg h4]
  · intro name parameters vals hname hvals
    simp only [List.mem_cons, List.not_mem_nil, or_false, not_or] at hname
    obtain ⟨h1, h2, h3, h4⟩ := hname
    obtain ⟨v, hv, hv0⟩ := hvals
    have hmem : v ∈ VariantB.remaining_values vals := by
      unfold VariantB.remaining_values
      rw [List.mem_filter]
      exact ⟨hv, by simpa using hv0⟩
    have hne : VariantB.remaining_values vals ≠ [] := by
      intro hc
      rw [hc] at hmem
      exact absurd hmem (List.not_mem_nil v)
    have hfv : VariantB.filter_values vals = Except.ok (VariantB.remaining_values vals) := by
      unfold VariantB.filter_values
      rw [if_neg (by simp [List.isEmpty_iff, hne])]
    unfold VariantB.get_probability_distribution
    split
    next e heq =>
      rw [hfv] at heq
      simp at heq
    next filtered_vals heq =>
      rw [hfv] at heq
      cases heq
      rw [if_neg h1, if_neg h2, if_neg h3, if_neg h4]

/-- Witness for the amended C4: evaluating "gaussian" on [0] fails with the
unsupported-distribution error in both variants. -/
theorem dispatcher_dispatch_amended_witness :
    VariantA.get_probability_distribution "gaussian" (Params.mk 0 0 0 0 0) [0]
      = Except.error unsupportedMsg ∧
    VariantB.get_probability_distribution "gaussian" (Params.mk 0 0 0 0 0) [0]
      = Except.error unsupportedMsg :=
  ⟨dispatcher_dispatch_amended.2.1 "gaussian" (Params.mk 0 0 0 0 0) [0]
      (by decide) (by decide),
   dispatcher_dispatch_amended.2.2 "gaussian" (Params.mk 0 0 0 0 0) [0]
      (by decide) ⟨0, by decide, by decide⟩⟩

/-- C5, counterexample. Variant B formulas do not always return 0 on
out-of-range parameters: the geometric formula at p = 2 (outside (0, 1])
and x = 1 returns 2, a nonzero value. -/
theorem variantB_out_of_range_counterexample :
    VariantB.geometric 2 [1] = [2] ∧ ¬ (0 < (2 : ℝ) ∧ (2 : ℝ) ≤ 1) := by
  constructor
  · unfold VariantB.geometric
    norm_num
  · norm_num

/-- C5, amended. Variant B performs no explicit parameter-range validation:
for every parameter value, in or out of range, the geometric, binomial and
poisson evaluators complete and return exactly one value per input, and
the uniform evaluator does so whenever low and high differ (at high = low
the source divides by zero, which is why that case is excluded); the
dispatcher accepts out-of-range parameters, e.g. geometric with p = 2;
but the values returned for out-of-range parameters need not be 0. -/
theorem variantB_no_parameter_validation :
    (∀ (p : ℝ) (vals : List ℤ), (VariantB.geometric p vals).length = vals.length) ∧
    (∀ (n : ℤ) (p : ℝ) (vals : List ℤ), (VariantB.binomial n p vals).length = vals.length) ∧
    (∀ (mu : ℝ) (vals : List ℤ), (VariantB.poisson_dist mu vals).length = vals.length) ∧
    (∀ (low high : ℝ) (vals : List ℤ), low ≠ high →
      (VariantB.uniform_dist low high vals).length = vals.length) ∧
    VariantB.get_probability_distribution "geometric" (Params.mk 0 2 0 0 0) [1]
      = Except.ok ([1], [2]) := by
  refine ⟨?_, ?_, ?_, ?_, ?_⟩
  · intro p vals
    unfold VariantB.geometric
    exact List.length_map vals _
  · intro n p vals
    unfold VariantB.binomial
    exact List.length_map vals _
  · intro mu vals
    unfold VariantB.poisson_dist
    exact List.length_map vals _
  · intro low high vals _hne
    unfold VariantB.uniform_dist
    exact List.length_map vals _
  · have h : VariantB.geometric 2 [1] = [2] := by
      unfold VariantB.geometric
      norm_num
    calc VariantB.get_probability_distribution "geometric" (Params.mk 0 2 0 0 0) [1]
        = Except.ok ([1], VariantB.geometric 2 [1]) := rfl
      _ = Except.ok ([1], [2]) := by rw [h]

/-- Witness for the amended C5: the uniform conjunct at low = 0, high = 2
(which differ) on vals = [0, 1]. -/
theorem variantB_no_parameter_validation_witness :
    (VariantB.uniform_dist 0 2 [0, 1]).length = ([0, 1] : List ℤ).length :=
  variantB_no_parameter_validation.2.2.2.1 0 2 [0, 1] (by norm_num)

/-- C6. For p in (0, 1], the Variant B geometric evaluator maps each
integer x to (1-p)^(x-1) * p when x >= 1 and to 0 when x <= 0. -/
theorem variantB_geometric_formula (p : ℝ) (_hp0 : 0 < p) (_hp1 : p ≤ 1) (vals : List ℤ) :
    VariantB.geometric p vals
      = vals.map (fun x => if 1 ≤ x then (1 - p) ^ (x - 1) * p else 0) := by
  unfold VariantB.geometric
  congr 1

/-- Witness for C6 at p = 1/2 on vals = [0, 1, 2]. -/
theorem variantB_geometric_formula_witness :
    VariantB.geometric (1/2) [0, 1, 2]
      = [0, 1, 2].map (fun x : ℤ => if 1 ≤ x then (1 - (1/2 : ℝ)) ^ (x - 1) * (1/2) else 0) :=
  variantB_geometric_formula (1/2) (by norm_num) (by norm_num) [0, 1, 2]

/-- C8. The Variant B Poisson evaluator with mu = 0 maps x = 0 to 1 and
every other integer to 0. -/
theorem variantB_poisson_mu_zero (vals : List ℤ) :
    VariantB.poisson_dist 0 vals = vals.map (fun x => if x = 0 then 1 else 0) := by
  unfold VariantB.poisson_dist
  congr 1
  funext x
  by_cases hx0 : x = 0
  · subst hx0
    norm_num [Real.exp_zero]
  · by_cases hx : x ≥ 0
    · rw [if_pos hx, if_neg hx0]
      rw [zero_zpow x hx0]
      simp
    · rw [if_neg hx, if_neg hx0]

/-- Helper: the sum of a function mapped over `List.range` agrees with the
corresponding `Finset.range` sum. -/
lemma sum_map_range_eq (f : ℕ → ℝ) (m : ℕ) :
    ((List.range m).map f).sum = ∑ i in Finset.range m, f i := by
  induction m with
  | zero => simp
  | succ k ih =>
    rw [List.range_succ, List.map_append, List.sum_append, Finset.sum_range_succ, ih]
    simp

/-- C7. For every integer n >= 0 and p in [0, 1], the Variant B binomial
evaluator applied to the values x = 0..n returns probabilities summing
exactly to 1. -/
theorem variantB_binomial_sums_to_one (n : ℕ) (p : ℝ) (_hp0 : 0 ≤ p) (_hp1 : p ≤ 1) :
    (VariantB.binomial (n : ℤ) p ((List.range (n + 1)).map (fun (k : ℕ) => (k : ℤ)))).sum = 1 := by
  unfold VariantB.binomial
  rw [List.map_map, sum_map_range_eq]
  have hterm : ∀ k ∈ Finset.range (n + 1),
      ((fun x : ℤ => if 0 ≤ x ∧ x ≤ (n : ℤ) then
          ((n : ℤ).toNat.choose x.toNat : ℝ) * p ^ x * (1 - p) ^ ((n : ℤ) - x) else 0) ∘
        (fun k : ℕ => (k : ℤ))) k
        = p ^ k * (1 - p) ^ (n - k) * (n.choose k : ℝ) := by
    intro k hk
    have hkn : k ≤ n := by
      have := Finset.mem_range.mp hk
      omega
    have hcond : (0 : ℤ) ≤ (k : ℤ) ∧ (k : ℤ) ≤ (n : ℤ) := by
      constructor
      · exact Int.ofNat_nonneg k
      · exact Int.ofNat_le.mpr hkn
    simp only [Function.comp_apply, if_pos hcond]
    have hsub : (n : ℤ) - (k : ℤ) = ((n - k : ℕ) : ℤ) := by
      omega
    rw [hsub, zpow_natCast, zpow_natCast]
    have hchoose : ((n : ℤ).toNat.choose (k : ℤ).toNat : ℝ) = (n.choose k : ℝ) := by
      norm_num
    rw [hchoose]
    ring
  rw [Finset.sum_congr rfl hterm, ← add_pow]
  have hone : p + (1 - p) = 1 := by ring
  rw [hone, one_pow]

/-- Witness for C7 at n = 2, p = 1/2. -/
theorem variantB_binomial_sums_to_one_witness :
    (VariantB.binomial ((2 : ℕ) : ℤ) (1/2)
      ((List.range (2 + 1)).map (fun (k : ℕ) => (k : ℤ)))).sum = 1 :=
  variantB_binomial_sums_to_one 2 (1/2) (by norm_num) (by norm_num)

/-- C9. Every successful evaluation pairs one probability with each
retained value, in order: in Variant B the returned value list is the
filtered (kept) input and the probabilities are its pointwise image under
a single function, of equal length; in Variant A the probabilities are
the pointwise image of the full input list, of equal length. -/
theorem result_pairs_probabilities :
    (∀ (name : String) (parameters : Params) (vals fv : List ℤ) (probs : List ℝ),
      VariantB.get_probability_distribution name parameters vals = Except.ok (fv, probs) →
      fv = VariantB.remaining_values vals ∧ probs.length = fv.length ∧
        ∃ f : ℤ → ℝ, probs = fv.map f) ∧
    (∀ (name : String) (parameters : Params) (vals : List ℤ) (probs : List ℝ),
      VariantA.get_probability_distribution name parameters vals = Except.ok probs →
      probs.length = vals.length ∧ ∃ f : ℤ → ℝ, probs = vals.map f) := by
  constructor
  · intro name parameters vals fv probs h
    have hrem : ∀ (l : List ℤ), VariantB.filter_values vals = Except.ok l →
        l = VariantB.remaining_values vals := by
      intro l hl
      unfold VariantB.filter_values at hl
      by_cases he : (VariantB.remaining_values vals).isEmpty
      · rw [if_pos he] at hl
        exact absurd hl (by simp)
      · rw [if_neg he] at hl
        cases hl
        rfl
    unfold VariantB.get_probability_distribution at h
    split at h
    next e heq =>
      exact absurd h (by simp)
    next filtered_vals heq =>
      have hfe : filtered_vals = VariantB.remaining_values vals := hrem filtered_vals heq
      split_ifs at h with h1 h2 h3 h4
      · cases h
        exact ⟨hfe, List.length_map _ _, _, rfl⟩
      · cases h
        exact ⟨hfe, List.length_map _ _, _, rfl⟩
      · cases h
        exact ⟨hfe, List.length_map _ _, _, rfl⟩
      · cases h
        exact ⟨hfe, List.length_map _ _, _, rfl⟩
  · intro name parameters vals probs h
    have hgeom : ∀ (p : ℝ) (h : VariantA.geometric p vals = Except.ok probs),
        probs = vals.map (VariantA.geomPmf p) := by
      intro p h
      unfold VariantA.geometric at h
      split_ifs at h
      exact (Except.ok.inj h).symm
    have hbinom : ∀ (n : ℤ) (p : ℝ) (h : VariantA.binomial n p vals = Except.ok probs),
        probs = vals.map (VariantA.binomPmf n p) := by
      intro n p h
      unfold VariantA.binomial at h
      split_ifs at h
      exact (Except.ok.inj h).symm
    have hpois : ∀ (mu : ℝ) (h : VariantA.poisson_dist mu vals = Except.ok probs),
        probs = vals.map (VariantA.poissonPmf mu) := by
      intro mu h
      unfold VariantA.poisson_dist at h
      split_ifs at h
      exact (Except.ok.inj h).symm
    have hunif : ∀ (low high : ℝ) (h : VariantA.uniform_dist low high vals = Except.ok probs),
        probs = vals.map (VariantA.uniformPdf low high) := by
      intro low high h
      unfold VariantA.uniform_dist at h
      split_ifs at h
      exact (Except.ok.inj h).symm
    unfold VariantA.get_probability_distribution at h
    split_ifs at h with h0 h1 h2 h3 h4
    · rw [hgeom parameters.p h]
      exact ⟨List.length_map _ _, _, rfl⟩
    · rw [hbinom parameters.n parameters.p h]
      exact ⟨List.length_map _ _, _, rfl⟩
    · rw [hpois parameters.mu h]
      exact ⟨List.length_map _ _, _, rfl⟩
    · rw [hunif parameters.low parameters.high h]
      exact ⟨List.length_map _ _, _, rfl⟩

/-- Witness for C9: a successful Variant B geometric evaluation on the
mixed list [-1, 1]. -/
theorem result_pairs_probabilities_witness :
    ([1] : List ℤ) = VariantB.remaining_values [-1, 1] ∧
    (VariantB.geometric (1/2) [1]).length = ([1] : List ℤ).length ∧
    ∃ f : ℤ → ℝ, VariantB.geometric (1/2) [1] = ([1] : List ℤ).map f :=
  result_pairs_probabilities.1 "geometric" (Params.mk 0 (1/2) 0 0 0) [-1, 1] [1]
    (VariantB.geometric (1/2) [1]) rfl

/-- C10. In Variant B, filtering runs before dispatch: an all-negative
input yields the all-negative invalid-input error for every name,
including unsupported ones, and conversely the unsupported-distribution
error is only reachable when some input value is non-negative. -/
theorem variantB_filter_before_dispatch :
    (∀ (name : String) (parameters : Params) (vals : List ℤ), (∀ v ∈ vals, v < 0) →
      VariantB.get_probability_distribution name parameters vals
        = Except.error VariantB.allNegativeMsg) ∧
    (∀ (name : String) (parameters : Params) (vals : List ℤ),
      VariantB.get_probability_distribution name parameters vals
        = Except.error unsupportedMsg →
      ∃ v ∈ vals, 0 ≤ v) := by
  constructor
  · intro name parameters vals h
    have hrem : VariantB.remaining_values vals = [] := by
      unfold VariantB.remaining_values
      rw [List.filter_eq_nil_iff]
      intro a ha
      have := h a ha
      simp only [decide_eq_true_eq]
      omega
    have hfv : VariantB.filter_values vals = Except.error VariantB.allNegativeMsg := by
      unfold VariantB.filter_values
      rw [if_pos (by simp [hrem])]
    unfold VariantB.get_probability_distribution
    rw [hfv]
  · intro name parameters vals h
    unfold VariantB.get_probability_distribution at h
    split at h
    next e heq =>
      unfold VariantB.filter_values at heq
      by_cases he : (VariantB.remaining_values vals).isEmpty
      · rw [if_pos he] at heq
        have he2 : e = VariantB.allNegativeMsg := (Except.error.inj heq).symm
        rw [he2] at h
        have hmsg : VariantB.allNegativeMsg = unsupportedMsg := Except.error.inj h
        exact absurd hmsg (by decide)
      · rw [if_neg he] at heq
        exact absurd heq (by simp)
    next filtered_vals heq =>
      have hne : VariantB.remaining_values vals ≠ [] := by
        intro hc
        unfold VariantB.filter_values at heq
        rw [if_pos (by simp [hc])] at heq
        exact absurd heq (by simp)
      obtain ⟨v, hv⟩ := List.exists_mem_of_ne_nil _ hne
      have := (List.mem_filter.mp hv)
      exact ⟨v, this.1, by simpa using this.2⟩

/-- Witness for C10: the all-negative input [-3, -1] with the unsupported
name "gaussian" still fails with the all-negative invalid-input error. -/
theorem variantB_filter_before_dispatch_witness :
    VariantB.get_probability_distribution "gaussian" (Params.mk 0 0 0 0 0) [-3, -1]
      = Except.error VariantB.allNegativeMsg :=
  variantB_filter_before_dispatch.1 "gaussian" (Params.mk 0 0 0 0 0) [-3, -1] (by decide)

end

end Spec2Proof
